import Mathlib

/-!
Verification of the tab-container widget `LapceWindowNew`
(`src/core/src/window.rs`) of the lapce editor fragment.

The widget owns an ordered sequence of tab widgets (`LapceWindowNew.tabs`,
a `Vec<WidgetPod<..>>`) and mutates the shared `LapceWindowData`
(tab-id-keyed state map `tabs`, `active` index, `active_id`).  We embed the
widget sequence as the list of the tab widgets' identifiers, the state map
as an association list (the source uses `im::HashMap`, of which the embedding
uses only `insert` / `remove` / `get` / `len`), and `WidgetId::next()` as an
explicit fresh counter threaded through the state.  Machine `usize`
arithmetic is `Nat` (the source never overflows where our theorems apply;
the underflow `self.tabs.len() - 1` on an empty vector is a panic site,
modelled in the panic-aware variants).  `f64` layout arithmetic is `Rat`.
-/

namespace LapceWindow

/-- `LapceWorkspaceType` from `state.rs`: a workspace is local or remote. -/
inductive LapceWorkspaceType where
  | Local : LapceWorkspaceType
  | RemoteSSH (user : String) (host : String) : LapceWorkspaceType
deriving DecidableEq

/-- `LapceWorkspace`: a kind plus a filesystem path, embedded as its list of
path components (`path.file_name()` is the last component, `none` when the
path has no final component). -/
structure LapceWorkspace where
  kind : LapceWorkspaceType
  path : List String
deriving DecidableEq

/-- Modelled from the spec: `LapceTabData` (`data.rs`, not under `src/`) is
the per-tab session state — the tab's identifier, its optional workspace
binding, and its background process handle ("proxy").  The proxy handle is
identified by a number; `proxy.stop()` is observed in the effects trace. -/
structure LapceTabData where
  id : Nat
  workspace : Option LapceWorkspace
  proxy : Nat
deriving DecidableEq

/-- Modelled from the spec: `LapceTabData::new` (`data.rs`, not under `src/`)
allocates fresh per-tab state for tab `tab_id`; `set_workspace` binds the
supplied workspace immediately.  The fresh proxy handle is identified by the
owning tab's identifier. -/
def LapceTabData.new (tab_id : Nat) (workspace : Option LapceWorkspace) :
    LapceTabData :=
  ⟨tab_id, workspace, tab_id⟩

/-- `im::HashMap::get` on the tab map: first entry with the given key. -/
def tabsGet : List (Nat × LapceTabData) → Nat → Option LapceTabData
  | [], _ => none
  | (k, v) :: t, key => if k = key then some v else tabsGet t key

/-- `im::HashMap::insert`: replace the entry in place when the key is
present, otherwise add the entry. -/
def tabsInsert : List (Nat × LapceTabData) → Nat → LapceTabData →
    List (Nat × LapceTabData)
  | [], key, v => [(key, v)]
  | (k, w) :: t, key, v =>
    if k = key then (key, v) :: t else (k, w) :: tabsInsert t key v

/-- `im::HashMap::remove`: the removed value together with the remaining
entries, or `none` when the key is absent. -/
def tabsRemove : List (Nat × LapceTabData) → Nat →
    Option (LapceTabData × List (Nat × LapceTabData))
  | [], _ => none
  | (k, v) :: t, key =>
    if k = key then some (v, t)
    else
      match tabsRemove t key with
      | none => none
      | some (r, rest) => some (r, (k, v) :: rest)

/-- The keys of the tab map, in entry order. -/
def tabKeys (tabs : List (Nat × LapceTabData)) : List Nat :=
  tabs.map Prod.fst

/-- `Vec::insert` at an index (used by `self.tabs.insert(data.active + 1, ..)`).
Rust panics when the index exceeds the length; the model then returns the
list unchanged, and every theorem using insertion carries the in-range
bound. -/
def vecInsert : List Nat → Nat → Nat → List Nat
  | l, 0, a => a :: l
  | [], _ + 1, _ => []
  | x :: t, n + 1, a => x :: vecInsert t n a

/-- Modelled from the spec: `LapceTabNew::new(&tab_data).lens(..)` (`tab.rs`,
not under `src/`) builds the tab's widget, whose widget identifier is the
tab's identifier `tab_id` — the spec's invariant `tabs[active_index].identifier
== active_id` identifies the two.  A widget is embedded as its identifier. -/
def mkTabWidget (tab_id : Nat) : Nat := tab_id

/-- Commands submitted through `ctx.submit_command`. -/
inductive UICmd where
  | focusTab : UICmd
  | updateWindowOrigin (target : Nat) : UICmd
deriving DecidableEq

/-- The observable side effects of one operation: the proxies stopped (in
order), the commands submitted, and whether `set_handled` /
`request_layout` were called. -/
structure Effects where
  stopped : List Nat
  emitted : List UICmd
  handled : Bool
  layoutRequested : Bool
deriving DecidableEq

def noFx : Effects := ⟨[], [], false, false⟩

/-- The joint state of `LapceWindowNew` and `LapceWindowData`:
`widgets` is `LapceWindowNew.tabs` (each `WidgetPod` by its identifier),
`tabs` / `active` / `active_id` are the fields of `LapceWindowData`, and
`nextId` is the `WidgetId::next()` freshness counter. -/
structure LapceWindowSt where
  widgets : List Nat
  tabs : List (Nat × LapceTabData)
  active : Nat
  active_id : Nat
  nextId : Nat
deriving DecidableEq

/-- `LapceWindowNew::new_tab` (window.rs lines 44–84). -/
def new_tab (s : LapceWindowSt) (workspace : Option LapceWorkspace)
    (replace_current : Bool) : LapceWindowSt × Effects :=
  let tab_id := s.nextId
  let tab_data := LapceTabData.new tab_id workspace
  let tabs1 := tabsInsert s.tabs tab_id tab_data
  if replace_current then
    let widgets := s.widgets.set s.active (mkTabWidget tab_id)
    match tabsRemove tabs1 s.active_id with
    | some (old, rest) =>
      (⟨widgets, rest, s.active, tab_id, s.nextId + 1⟩,
       ⟨[old.proxy], [UICmd.focusTab], true, true⟩)
    | none =>
      (⟨widgets, tabs1, s.active, tab_id, s.nextId + 1⟩,
       ⟨[], [UICmd.focusTab], true, true⟩)
  else
    (⟨vecInsert s.widgets (s.active + 1) (mkTabWidget tab_id), tabs1,
      s.active + 1, tab_id, s.nextId + 1⟩,
     ⟨[], [UICmd.focusTab], true, true⟩)

/-- `LapceWindowNew::close_tab` (window.rs lines 86–109). -/
def close_tab (s : LapceWindowSt) : LapceWindowSt × Effects :=
  if s.tabs.length = 1 then (s, noFx)
  else
    let widgets := s.widgets.eraseIdx s.active
    let rem := tabsRemove s.tabs s.active_id
    let stopped := match rem with
      | some (old, _) => [old.proxy]
      | none => []
    let tabs1 := match rem with
      | some (_, rest) => rest
      | none => s.tabs
    let active := if widgets.length ≤ s.active then widgets.length - 1
      else s.active
    let active_id := widgets.getD active 0
    (⟨widgets, tabs1, active, active_id, s.nextId⟩,
     ⟨stopped, [UICmd.focusTab], true, true⟩)

/-- The `LapceUICommand::NextTab` arm of `event` (window.rs lines 136–151). -/
def next_tab (s : LapceWindowSt) : LapceWindowSt × Effects :=
  let new_index := if s.widgets.length - 1 ≤ s.active then 0 else s.active + 1
  ({ s with active := new_index, active_id := s.widgets.getD new_index 0 },
   ⟨[], [UICmd.focusTab], true, true⟩)

/-- The `LapceUICommand::PreviousTab` arm of `event`
(window.rs lines 152–167). -/
def previous_tab (s : LapceWindowSt) : LapceWindowSt × Effects :=
  let new_index := if s.active = 0 then s.widgets.length - 1 else s.active - 1
  ({ s with active := new_index, active_id := s.widgets.getD new_index 0 },
   ⟨[], [UICmd.focusTab], true, true⟩)

/-- The `LapceUICommand` variants `event` matches on; `Other` stands for the
variants reaching the `_ => ()` arm (`FocusTab`, `UpdateWindowOrigin`, …). -/
inductive LapceUICommand where
  | SetWorkspace (workspace : LapceWorkspace) : LapceUICommand
  | NewTab : LapceUICommand
  | CloseTab : LapceUICommand
  | NextTab : LapceUICommand
  | PreviousTab : LapceUICommand
  | Other (code : Nat) : LapceUICommand
deriving DecidableEq

/-- An event delivered to `event`: a `LAPCE_UI_COMMAND` command, or any
other event (non-`LAPCE_UI_COMMAND` commands included). -/
inductive UIEvent where
  | Command (cmd : LapceUICommand) : UIEvent
  | Other (code : Nat) : UIEvent
deriving DecidableEq

/-- Modelled from the spec: `WidgetPod::event` (druid toolkit, out of scope
per the spec's non-goals) does not deliver an event already marked handled
to its inner widget — the spec's "stops further propagation for commands it
fully handles". -/
def podForward (handled : Bool) (widget : Nat) : List Nat :=
  if handled then [] else [widget]

/-- The result of one `event` call: the new state, the effects, and the
identifiers of the tab widgets the event was delivered to. -/
structure EventResult where
  state : LapceWindowSt
  fx : Effects
  forwarded : List Nat
deriving DecidableEq

/-- `LapceWindowNew::event` (window.rs lines 113–174).  The
`SetWorkspace` / `NewTab` / `CloseTab` arms `return` early; every other
path falls through to `self.tabs[data.active].event(..)`, a delivery the
pod suppresses when the event was marked handled. -/
def event (s : LapceWindowSt) (e : UIEvent) : EventResult :=
  match e with
  | .Command (.SetWorkspace w) =>
    let p := new_tab s (some w) true
    ⟨p.1, p.2, []⟩
  | .Command .NewTab =>
    let p := new_tab s none false
    ⟨p.1, p.2, []⟩
  | .Command .CloseTab =>
    let p := close_tab s
    ⟨p.1, p.2, []⟩
  | .Command .NextTab =>
    let p := next_tab s
    ⟨p.1, p.2, podForward p.2.handled (p.1.widgets.getD p.1.active 0)⟩
  | .Command .PreviousTab =>
    let p := previous_tab s
    ⟨p.1, p.2, podForward p.2.handled (p.1.widgets.getD p.1.active 0)⟩
  | _ => ⟨s, noFx, podForward false (s.widgets.getD s.active 0)⟩

/-- `LapceWindowNew::layout` (window.rs lines 210–243), with `f64` embedded
as `Rat`.  Records the tight constraint size and origin given to the active
tab, the command submitted, and the returned size. -/
structure LayoutResult where
  tabSize : Rat × Rat
  tabOrigin : Rat × Rat
  emitted : List UICmd
  returned : Rat × Rat
deriving DecidableEq

def layout (s : LapceWindowSt) (bcMax : Rat × Rat) : LayoutResult :=
  let self_size := bcMax
  let p : (Rat × Rat) × (Rat × Rat) :=
    if 1 < s.widgets.length then
      let tab_height : Rat := 25
      ((self_size.1, self_size.2 - tab_height), (0, tab_height))
    else
      (self_size, (0, 0))
  ⟨p.1, p.2, [UICmd.updateWindowOrigin s.active_id], self_size⟩

/-- `Path::file_name` on a path given by its components: the last
component, when there is one. -/
def file_name (path : List String) : Option String :=
  path.getLast?

/-- The tab-strip label computed in `paint` (window.rs lines 268–282 and
320–334): the workspace's last path component (suffixed with
`" [user@host]"` for a remote workspace), or `"Lapce"` when no workspace is
bound; `none` marks the `unwrap` panic on a path with no final component. -/
def workspaceLabel : Option LapceWorkspace → Option String
  | none => some "Lapce"
  | some w =>
    match file_name w.path with
    | none => none
    | some dir =>
      match w.kind with
      | .Local => some dir
      | .RemoteSSH user host =>
        some (dir ++ " [" ++ user ++ "@" ++ host ++ "]")

/-- The labels `paint` draws in the strip pass (window.rs lines 245–306):
one per tab in widget order, each looked up with
`data.tabs.get(&tab_id).unwrap()`; `none` marks a panic. -/
def paintLabels (widgets : List Nat) (tabs : List (Nat × LapceTabData)) :
    Option (List String) :=
  match widgets with
  | [] => some []
  | tab_id :: rest =>
    match tabsGet tabs tab_id with
    | none => none
    | some tab =>
      match workspaceLabel tab.workspace with
      | none => none
      | some dir =>
        match paintLabels rest tabs with
        | none => none
        | some l => some (dir :: l)

/-- `LapceWindowNew::paint` (window.rs lines 245–357), panic-aware: the
labels drawn in the strip (empty when a single tab fills the window), or
`none` when an `unwrap` or the `self.tabs[data.active]` index panics. -/
def paint (s : LapceWindowSt) : Option (List String) :=
  match s.widgets.get? s.active with
  | none => none
  | some _ =>
    if 1 < s.widgets.length then paintLabels s.widgets s.tabs
    else some []

/-- `LapceWindowNew::update` (window.rs lines 188–208), panic-aware:
`none` when either `tabs.get(..).unwrap()` or the active index panics;
otherwise whether a layout pass was requested, and the widget the update
was propagated to. -/
def update (old_data data : LapceWindowSt) : Option (Bool × Nat) :=
  match tabsGet old_data.tabs old_data.active_id with
  | none => none
  | some old_tab =>
    match tabsGet data.tabs data.active_id with
    | none => none
    | some tab =>
      match data.widgets.get? data.active with
      | none => none
      | some w =>
        some (decide (old_data.active ≠ data.active) ||
          decide (old_tab.workspace ≠ tab.workspace), w)

/-- `close_tab`, panic-aware: `none` when `Vec::remove` is called out of
range, or when the widget list empties and `self.tabs.len() - 1` /
`self.tabs[data.active]` panic. -/
def close_tab_checked (s : LapceWindowSt) :
    Option (LapceWindowSt × Effects) :=
  if s.tabs.length = 1 then some (s, noFx)
  else if s.widgets.length ≤ s.active then none
  else
    let widgets := s.widgets.eraseIdx s.active
    if widgets.length = 0 then none
    else
      let rem := tabsRemove s.tabs s.active_id
      let stopped := match rem with
        | some (old, _) => [old.proxy]
        | none => []
      let tabs1 := match rem with
        | some (_, rest) => rest
        | none => s.tabs
      let active := if widgets.length ≤ s.active then widgets.length - 1
        else s.active
      let active_id := widgets.getD active 0
      some (⟨widgets, tabs1, active, active_id, s.nextId⟩,
        ⟨stopped, [UICmd.focusTab], true, true⟩)

/-- One container operation, for running sequences. -/
inductive Op where
  | openTab (workspace : Option LapceWorkspace) (replace_current : Bool) : Op
  | closeTab : Op
  | nextTab : Op
  | prevTab : Op
deriving DecidableEq

def applyOp (s : LapceWindowSt) : Op → LapceWindowSt
  | .openTab w r => (new_tab s w r).1
  | .closeTab => (close_tab s).1
  | .nextTab => (next_tab s).1
  | .prevTab => (previous_tab s).1

def runOps (s : LapceWindowSt) : List Op → LapceWindowSt
  | [] => s
  | op :: rest => runOps (applyOp s op) rest

/-- The container invariant: the active index is valid, the active
identifier is the widget at the active index, the widget identifiers are a
permutation of the state map's keys and are distinct, and every widget
identifier is below the freshness counter. -/
@[reducible] def Inv (s : LapceWindowSt) : Prop :=
  s.active < s.widgets.length ∧
  s.widgets.get? s.active = some s.active_id ∧
  s.widgets.Perm (tabKeys s.tabs) ∧
  (∀ k ∈ s.widgets, k < s.nextId) ∧
  s.widgets.Nodup

/-- The events the container fully handles itself: the five recognized
`LAPCE_UI_COMMAND` variants of window.rs lines 124–167. -/
def fullyHandled : UIEvent → Bool
  | .Command (.SetWorkspace _) => true
  | .Command .NewTab => true
  | .Command .CloseTab => true
  | .Command .NextTab => true
  | .Command .PreviousTab => true
  | _ => false

/-! ### List helper lemmas -/

theorem vecInsert_eq : ∀ (l : List Nat) (i a : Nat), i ≤ l.length →
    vecInsert l i a = l.take i ++ a :: l.drop i
  | l, 0, _, _ => by cases l <;> rfl
  | [], i + 1, _, h => absurd h (by simp)
  | x :: t, i + 1, a, h => by
    simpa [vecInsert] using vecInsert_eq t i a (Nat.le_of_succ_le_succ h)

theorem vecInsert_length : ∀ (l : List Nat) (i a : Nat), i ≤ l.length →
    (vecInsert l i a).length = l.length + 1
  | l, 0, _, _ => by cases l <;> rfl
  | [], i + 1, _, h => absurd h (by simp)
  | x :: t, i + 1, a, h => by
    simpa [vecInsert] using vecInsert_length t i a (Nat.le_of_succ_le_succ h)

theorem vecInsert_get_self : ∀ (l : List Nat) (i a : Nat), i ≤ l.length →
    (vecInsert l i a).get? i = some a
  | l, 0, _, _ => by cases l <;> rfl
  | [], i + 1, _, h => absurd h (by simp)
  | x :: t, i + 1, a, h => by
    simpa [vecInsert] using vecInsert_get_self t i a (Nat.le_of_succ_le_succ h)

theorem vecInsert_perm (l : List Nat) (i a : Nat) (h : i ≤ l.length) :
    (vecInsert l i a).Perm (a :: l) := by
  rw [vecInsert_eq l i a h]
  have h1 : (l.take i ++ a :: l.drop i).Perm (a :: (l.take i ++ l.drop i)) :=
    List.perm_middle
  rwa [List.take_append_drop] at h1

theorem get_eq_getD : ∀ (l : List Nat) (i : Nat), i < l.length →
    l.get? i = some (l.getD i 0)
  | x :: t, 0, _ => rfl
  | x :: t, i + 1, h => get_eq_getD t i (Nat.lt_of_succ_lt_succ h)
  | [], i, h => absurd h (by simp)

theorem set_get_self : ∀ (l : List Nat) (i a : Nat), i < l.length →
    (l.set i a).get? i = some a
  | x :: t, 0, _, _ => rfl
  | x :: t, i + 1, a, h => set_get_self t i a (Nat.lt_of_succ_lt_succ h)
  | [], i, _, h => absurd h (by simp)

theorem set_perm : ∀ (l : List Nat) (i a b : Nat), l.get? i = some b →
    (l.set i a).Perm (a :: l.eraseIdx i)
  | x :: t, 0, a, b, _ => by simp [List.set, List.eraseIdx]
  | x :: t, i + 1, a, b, h => by
    have ih := set_perm t i a b h
    have h1 : (x :: t.set i a).Perm (x :: a :: t.eraseIdx i) := ih.cons x
    have h2 : (x :: a :: t.eraseIdx i).Perm (a :: x :: t.eraseIdx i) :=
      List.Perm.swap a x _
    exact h1.trans h2
  | [], i, a, b, h => absurd h (by simp)

theorem eraseIdx_take_drop : ∀ (l : List Nat) (i : Nat), i < l.length →
    l.eraseIdx i = l.take i ++ l.drop (i + 1)
  | x :: t, 0, _ => rfl
  | x :: t, i + 1, h => by
    simpa [List.eraseIdx] using eraseIdx_take_drop t i (Nat.lt_of_succ_lt_succ h)
  | [], i, h => absurd h (by simp)

theorem erase_get_eraseIdx : ∀ (l : List Nat) (i a : Nat),
    l.get? i = some a → l.Nodup → l.erase a = l.eraseIdx i
  | x :: t, 0, a, h, _ => by
    have hx : x = a := by simpa using h
    subst hx
    simp [List.eraseIdx]
  | x :: t, i + 1, a, h, hn => by
    have hmem : a ∈ t := List.get?_mem h
    have hne : x ≠ a := by
      intro hxa
      subst hxa
      exact (List.nodup_cons.mp hn).1 hmem
    rw [List.eraseIdx]
    rw [List.erase_cons_tail (by simpa using hne)]
    rw [erase_get_eraseIdx t i a h (List.nodup_cons.mp hn).2]
  | [], i, a, h, _ => absurd h (by simp)

theorem nodup_get_ne : ∀ (l : List Nat), l.Nodup → ∀ i j : Nat,
    i < l.length → j < l.length → i ≠ j → l.get? i ≠ l.get? j
  | x :: t, hn, 0, 0, _, _, hij => absurd rfl hij
  | x :: t, hn, 0, j + 1, _, hj, _ => by
    intro heq
    have : some x = t.get? j := heq
    have hmem : x ∈ t := List.get?_mem this.symm
    exact (List.nodup_cons.mp hn).1 hmem
  | x :: t, hn, i + 1, 0, hi, _, _ => by
    intro heq
    have : t.get? i = some x := heq
    exact (List.nodup_cons.mp hn).1 (List.get?_mem this)
  | x :: t, hn, i + 1, j + 1, hi, hj, hij =>
    nodup_get_ne t (List.nodup_cons.mp hn).2 i j (Nat.lt_of_succ_lt_succ hi)
      (Nat.lt_of_succ_lt_succ hj) (fun h => hij (by rw [h]))
  | [], _, i, j, hi, _, _ => absurd hi (by simp)

/-! ### Tab-map helper lemmas -/

theorem tabsGet_eq_none : ∀ (l : List (Nat × LapceTabData)) (k : Nat),
    tabsGet l k = none ↔ k ∉ tabKeys l := by
  intro l k
  induction l with
  | nil => simp [tabsGet, tabKeys]
  | cons p t ih =>
    obtain ⟨k1, v1⟩ := p
    by_cases h : k1 = k
    · subst h
      simp [tabsGet, tabKeys]
    · have h2 : ¬ k = k1 := fun hk => h hk.symm
      simp [tabsGet, tabKeys, h, h2, ih]

theorem tabsInsert_fresh : ∀ (l : List (Nat × LapceTabData)) (k : Nat)
    (v : LapceTabData), k ∉ tabKeys l → tabsInsert l k v = l ++ [(k, v)] := by
  intro l k v
  induction l with
  | nil => intro _; rfl
  | cons p t ih =>
    obtain ⟨k1, v1⟩ := p
    intro h
    have h1 : k1 ≠ k := by
      intro hk
      exact h (by simp [tabKeys, hk])
    have h2 : k ∉ tabKeys t := by
      intro hk
      exact h (by simp [tabKeys]; right; simpa [tabKeys] using hk)
    simp [tabsInsert, h1, ih h2]

theorem tabsRemove_not_mem : ∀ (l : List (Nat × LapceTabData)) (k : Nat),
    k ∉ tabKeys l → tabsRemove l k = none := by
  intro l k
  induction l with
  | nil => intro _; rfl
  | cons p t ih =>
    obtain ⟨k1, v1⟩ := p
    intro h
    have h1 : k1 ≠ k := by
      intro hk
      exact h (by simp [tabKeys, hk])
    have h2 : k ∉ tabKeys t := by
      intro hk
      exact h (by simp [tabKeys]; right; simpa [tabKeys] using hk)
    simp [tabsRemove, h1, ih h2]

theorem tabsRemove_spec : ∀ (l : List (Nat × LapceTabData)) (k : Nat),
    k ∈ tabKeys l → ∃ v rest, tabsRemove l k = some (v, rest) ∧
      tabsGet l k = some v ∧ tabKeys rest = (tabKeys l).erase k ∧
      rest.length + 1 = l.length := by
  intro l k
  induction l with
  | nil => intro h; simp [tabKeys] at h
  | cons p t ih =>
    obtain ⟨k1, v1⟩ := p
    intro h
    by_cases h1 : k1 = k
    · subst h1
      refine ⟨v1, t, ?_, ?_, ?_, ?_⟩
      · simp [tabsRemove]
      · simp [tabsGet]
      · simp [tabKeys, List.erase_cons_head]
      · simp
    · have hmem : k ∈ tabKeys t := by
        have := h
        simp [tabKeys] at this
        rcases this with h2 | h2
        · exact absurd h2.symm h1
        · simpa [tabKeys] using h2
      obtain ⟨v, rest, hrem, hget, hkeys, hlen⟩ := ih hmem
      refine ⟨v, (k1, v1) :: rest, ?_, ?_, ?_, ?_⟩
      · simp [tabsRemove, h1, hrem]
      · simp [tabsGet, h1, hget]
      · simp only [tabKeys, List.map_cons]
        rw [List.erase_cons_tail (by simpa using h1)]
        simp only [tabKeys] at hkeys
        rw [hkeys]
      · simpa using hlen

theorem tabsGet_append_left : ∀ (l l2 : List (Nat × LapceTabData))
    (k : Nat) (v : LapceTabData), tabsGet l k = some v →
    tabsGet (l ++ l2) k = some v := by
  intro l l2 k v
  induction l with
  | nil => intro h; simp [tabsGet] at h
  | cons p t ih =>
    obtain ⟨k1, v1⟩ := p
    intro h
    by_cases h1 : k1 = k
    · subst h1
      simp [tabsGet] at h ⊢
      exact h
    · simp [tabsGet, h1] at h ⊢
      exact ih h

theorem getD_ne_of_ne (l : List Nat) (hn : l.Nodup) (i j : Nat)
    (hi : i < l.length) (hj : j < l.length) (hij : i ≠ j) :
    l.getD i 0 ≠ l.getD j 0 := by
  intro he
  apply nodup_get_ne l hn i j hi hj hij
  rw [get_eq_getD _ _ hi, get_eq_getD _ _ hj, he]

theorem tabsInsert_keys : ∀ (l : List (Nat × LapceTabData)) (k : Nat)
    (v : LapceTabData) (x : Nat), x ∈ tabKeys (tabsInsert l k v) →
    x ∈ tabKeys l ∨ x = k := by
  intro l k v x
  induction l with
  | nil =>
    intro h
    simp [tabsInsert, tabKeys] at h
    exact Or.inr h
  | cons p t ih =>
    obtain ⟨k1, v1⟩ := p
    intro h
    by_cases h1 : k1 = k
    · subst h1
      simp [tabsInsert, tabKeys] at h
      rcases h with h | h
      · exact Or.inr h
      · exact Or.inl (by simp [tabKeys]; right; simpa [tabKeys] using h)
    · simp [tabsInsert, h1, tabKeys] at h
      rcases h with h | h
      · exact Or.inl (by simp [tabKeys, h])
      · rcases ih (by simpa [tabKeys] using h) with h2 | h2
        · exact Or.inl (by simp [tabKeys]; right; simpa [tabKeys] using h2)
        · exact Or.inr h2

/-! ### Consequences of the invariant -/

theorem inv_nextId_not_mem {s : LapceWindowSt} (h : Inv s) :
    s.nextId ∉ s.widgets :=
  fun hmem => absurd (h.2.2.2.1 _ hmem) (lt_irrefl _)

theorem inv_nextId_not_mem_keys {s : LapceWindowSt} (h : Inv s) :
    s.nextId ∉ tabKeys s.tabs :=
  fun hmem => inv_nextId_not_mem h (h.2.2.1.mem_iff.mpr hmem)

theorem inv_active_id_mem {s : LapceWindowSt} (h : Inv s) :
    s.active_id ∈ s.widgets :=
  List.get?_mem h.2.1

theorem inv_active_id_mem_keys {s : LapceWindowSt} (h : Inv s) :
    s.active_id ∈ tabKeys s.tabs :=
  h.2.2.1.mem_iff.mp (inv_active_id_mem h)

theorem inv_len_eq {s : LapceWindowSt} (h : Inv s) :
    s.widgets.length = s.tabs.length := by
  simpa [tabKeys] using h.2.2.1.length_eq

/-! ### Shape of each operation's result -/

theorem new_tab_insert_eq (s : LapceWindowSt) (ws : Option LapceWorkspace)
    (hni : s.nextId ∉ tabKeys s.tabs) :
    new_tab s ws false =
      (⟨vecInsert s.widgets (s.active + 1) s.nextId,
        s.tabs ++ [(s.nextId, LapceTabData.new s.nextId ws)],
        s.active + 1, s.nextId, s.nextId + 1⟩,
       ⟨[], [UICmd.focusTab], true, true⟩) := by
  simp [new_tab, mkTabWidget, tabsInsert_fresh _ _ _ hni]

theorem new_tab_replace_eq (s : LapceWindowSt) (ws : Option LapceWorkspace)
    (v0 : LapceTabData) (rest : List (Nat × LapceTabData))
    (hni : s.nextId ∉ tabKeys s.tabs)
    (hrem : tabsRemove (s.tabs ++ [(s.nextId, LapceTabData.new s.nextId ws)])
      s.active_id = some (v0, rest)) :
    new_tab s ws true =
      (⟨s.widgets.set s.active s.nextId, rest, s.active, s.nextId,
        s.nextId + 1⟩,
       ⟨[v0.proxy], [UICmd.focusTab], true, true⟩) := by
  simp [new_tab, mkTabWidget, tabsInsert_fresh _ _ _ hni, hrem]

theorem close_tab_eq (s : LapceWindowSt) (v0 : LapceTabData)
    (rest : List (Nat × LapceTabData)) (hne : ¬ s.tabs.length = 1)
    (hrem : tabsRemove s.tabs s.active_id = some (v0, rest)) :
    close_tab s =
      (⟨s.widgets.eraseIdx s.active, rest,
        (if (s.widgets.eraseIdx s.active).length ≤ s.active then
          (s.widgets.eraseIdx s.active).length - 1 else s.active),
        (s.widgets.eraseIdx s.active).getD
          (if (s.widgets.eraseIdx s.active).length ≤ s.active then
            (s.widgets.eraseIdx s.active).length - 1 else s.active) 0,
        s.nextId⟩,
       ⟨[v0.proxy], [UICmd.focusTab], true, true⟩) := by
  simp [close_tab, hne, hrem]

/-! ### Preservation of the invariant -/

theorem inv_new_tab (s : LapceWindowSt) (ws : Option LapceWorkspace)
    (r : Bool) (h : Inv s) : Inv (new_tab s ws r).1 := by
  have hni := inv_nextId_not_mem_keys h
  have hnw := inv_nextId_not_mem h
  cases r with
  | false =>
    rw [new_tab_insert_eq s ws hni]
    dsimp only
    have hle : s.active + 1 ≤ s.widgets.length := h.1
    have p1 := vecInsert_perm s.widgets (s.active + 1) s.nextId hle
    refine ⟨?_, ?_, ?_, ?_, ?_⟩
    · show s.active + 1 < (vecInsert s.widgets (s.active + 1) s.nextId).length
      rw [vecInsert_length _ _ _ hle]
      omega
    · exact vecInsert_get_self _ _ _ hle
    · have hk : tabKeys (s.tabs ++ [(s.nextId, LapceTabData.new s.nextId ws)])
          = tabKeys s.tabs ++ [s.nextId] := by
        simp [tabKeys]
      rw [hk]
      have p2 := List.perm_append_singleton s.nextId (tabKeys s.tabs)
      exact p1.trans ((h.2.2.1.cons s.nextId).trans p2.symm)
    · intro k hk
      show k < s.nextId + 1
      rcases List.mem_cons.mp (p1.mem_iff.mp hk) with h1 | h1
      · omega
      · have := h.2.2.2.1 k h1
        omega
    · have hnd : (s.nextId :: s.widgets).Nodup :=
        List.nodup_cons.mpr ⟨hnw, h.2.2.2.2⟩
      exact p1.symm.nodup hnd
  | true =>
    have hmem : s.active_id ∈
        tabKeys (s.tabs ++ [(s.nextId, LapceTabData.new s.nextId ws)]) := by
      simp only [tabKeys, List.map_append]
      exact List.mem_append.mpr (Or.inl (inv_active_id_mem_keys h))
    obtain ⟨v0, rest, hrem, hget, hkeys, hlen⟩ := tabsRemove_spec _ _ hmem
    rw [new_tab_replace_eq s ws v0 rest hni hrem]
    dsimp only
    have pset := set_perm s.widgets s.active s.nextId s.active_id h.2.1
    have herase : s.widgets.erase s.active_id = s.widgets.eraseIdx s.active :=
      erase_get_eraseIdx s.widgets s.active s.active_id h.2.1 h.2.2.2.2
    have hsub := (List.eraseIdx_sublist s.widgets s.active).subset
    refine ⟨?_, ?_, ?_, ?_, ?_⟩
    · simpa [List.length_set] using h.1
    · exact set_get_self _ _ _ h.1
    · have hk1 : tabKeys (s.tabs ++ [(s.nextId, LapceTabData.new s.nextId ws)])
          = tabKeys s.tabs ++ [s.nextId] := by
        simp [tabKeys]
      have hk2 : tabKeys rest =
          (tabKeys s.tabs).erase s.active_id ++ [s.nextId] := by
        rw [hkeys, hk1, List.erase_append_left _ (inv_active_id_mem_keys h)]
      rw [hk2]
      have pe : (s.widgets.eraseIdx s.active).Perm
          ((tabKeys s.tabs).erase s.active_id) := by
        rw [← herase]
        exact h.2.2.1.erase s.active_id
      have p3 := List.perm_append_singleton s.nextId
        ((tabKeys s.tabs).erase s.active_id)
      exact pset.trans ((pe.cons s.nextId).trans p3.symm)
    · intro k hk
      show k < s.nextId + 1
      rcases List.mem_cons.mp (pset.mem_iff.mp hk) with h1 | h1
      · omega
      · have := h.2.2.2.1 k (hsub h1)
        omega
    · have hnd : (s.nextId :: s.widgets.eraseIdx s.active).Nodup :=
        List.nodup_cons.mpr ⟨fun hc => hnw (hsub hc),
          (List.eraseIdx_sublist s.widgets s.active).nodup h.2.2.2.2⟩
      exact pset.symm.nodup hnd

theorem inv_close_tab (s : LapceWindowSt) (h : Inv s) :
    Inv (close_tab s).1 := by
  by_cases hne : s.tabs.length = 1
  · simpa [close_tab, hne] using h
  · obtain ⟨v0, rest, hrem, hget, hkeys, hlen⟩ :=
      tabsRemove_spec _ _ (inv_active_id_mem_keys h)
    rw [close_tab_eq s v0 rest hne hrem]
    dsimp only
    have hw2 : 2 ≤ s.widgets.length := by
      have h1 := inv_len_eq h
      have h2 := h.1
      omega
    have hlen2 : (s.widgets.eraseIdx s.active).length
        = s.widgets.length - 1 := by
      rw [List.length_eraseIdx]
      simp [h.1]
    have hbound : (if (s.widgets.eraseIdx s.active).length ≤ s.active then
        (s.widgets.eraseIdx s.active).length - 1 else s.active) <
        (s.widgets.eraseIdx s.active).length := by
      split <;> omega
    have hsub := (List.eraseIdx_sublist s.widgets s.active).subset
    refine ⟨?_, ?_, ?_, ?_, ?_⟩
    · exact hbound
    · exact get_eq_getD _ _ hbound
    · rw [hkeys]
      have herase : s.widgets.erase s.active_id
          = s.widgets.eraseIdx s.active :=
        erase_get_eraseIdx s.widgets s.active s.active_id h.2.1 h.2.2.2.2
      rw [← herase]
      exact h.2.2.1.erase s.active_id
    · intro k hk
      exact h.2.2.2.1 k (hsub hk)
    · exact (List.eraseIdx_sublist s.widgets s.active).nodup h.2.2.2.2

theorem inv_next_tab (s : LapceWindowSt) (h : Inv s) :
    Inv (next_tab s).1 := by
  have h1 := h.1
  have hbound : (if s.widgets.length - 1 ≤ s.active then 0 else s.active + 1)
      < s.widgets.length := by
    split <;> omega
  exact ⟨hbound, get_eq_getD _ _ hbound, h.2.2.1, h.2.2.2.1, h.2.2.2.2⟩

theorem inv_previous_tab (s : LapceWindowSt) (h : Inv s) :
    Inv (previous_tab s).1 := by
  have h1 := h.1
  have hbound : (if s.active = 0 then s.widgets.length - 1 else s.active - 1)
      < s.widgets.length := by
    split <;> omega
  exact ⟨hbound, get_eq_getD _ _ hbound, h.2.2.1, h.2.2.2.1, h.2.2.2.2⟩

theorem inv_applyOp (s : LapceWindowSt) (op : Op) (h : Inv s) :
    Inv (applyOp s op) := by
  cases op with
  | openTab ws r => exact inv_new_tab s ws r h
  | closeTab => exact inv_close_tab s h
  | nextTab => exact inv_next_tab s h
  | prevTab => exact inv_previous_tab s h

theorem inv_runOps (s : LapceWindowSt) (ops : List Op) (h : Inv s) :
    Inv (runOps s ops) := by
  induction ops generalizing s with
  | nil => exact h
  | cons op rest ih => exact ih (applyOp s op) (inv_applyOp s op h)

/-! ### The claims -/

/-- C1: for every sequence of OpenTab (`new_tab`), CloseTab (`close_tab`),
SelectNextTab and SelectPreviousTab operations starting from a well-formed
state with one tab, after each operation completes the active index is a
valid index into the widget sequence and the active identifier equals the
identifier of the widget at the active index. -/
theorem C1_active_invariant (s0 : LapceWindowSt) (hinv : Inv s0)
    (hone : s0.widgets.length = 1) (ops : List Op) :
    (runOps s0 ops).active < (runOps s0 ops).widgets.length ∧
    (runOps s0 ops).widgets.get? (runOps s0 ops).active
      = some (runOps s0 ops).active_id := by
  have h := inv_runOps s0 ops hinv
  exact ⟨h.1, h.2.1⟩

/-- Witness for C1: a concrete one-tab start and operation sequence. -/
theorem C1_active_invariant_witness :
    (runOps ⟨[0], [(0, ⟨0, none, 0⟩)], 0, 0, 1⟩
      [Op.openTab none false, Op.openTab none true, Op.nextTab,
        Op.closeTab, Op.prevTab]).active <
    (runOps ⟨[0], [(0, ⟨0, none, 0⟩)], 0, 0, 1⟩
      [Op.openTab none false, Op.openTab none true, Op.nextTab,
        Op.closeTab, Op.prevTab]).widgets.length ∧
    (runOps ⟨[0], [(0, ⟨0, none, 0⟩)], 0, 0, 1⟩
      [Op.openTab none false, Op.openTab none true, Op.nextTab,
        Op.closeTab, Op.prevTab]).widgets.get?
      (runOps ⟨[0], [(0, ⟨0, none, 0⟩)], 0, 0, 1⟩
        [Op.openTab none false, Op.openTab none true, Op.nextTab,
          Op.closeTab, Op.prevTab]).active
      = some (runOps ⟨[0], [(0, ⟨0, none, 0⟩)], 0, 0, 1⟩
        [Op.openTab none false, Op.openTab none true, Op.nextTab,
          Op.closeTab, Op.prevTab]).active_id :=
  C1_active_invariant ⟨[0], [(0, ⟨0, none, 0⟩)], 0, 0, 1⟩
    (by decide) (by decide) _

/-- C3: from every well-formed state, OpenTab with `replaceCurrent = false`
grows the widget sequence and state map by one, inserts the new tab's widget
at position `active + 1` (before it the old first `active + 1` widgets, after
it the rest), advances the active index to `active + 1`, and sets the active
identifier to the new tab's identifier. -/
theorem C3_open_after_active (s : LapceWindowSt)
    (ws : Option LapceWorkspace) (h : Inv s) :
    (new_tab s ws false).1.widgets.length = s.widgets.length + 1 ∧
    (new_tab s ws false).1.tabs.length = s.tabs.length + 1 ∧
    (new_tab s ws false).1.widgets
      = s.widgets.take (s.active + 1)
        ++ s.nextId :: s.widgets.drop (s.active + 1) ∧
    (new_tab s ws false).1.widgets.get? (s.active + 1) = some s.nextId ∧
    (new_tab s ws false).1.active = s.active + 1 ∧
    (new_tab s ws false).1.active_id = s.nextId := by
  rw [new_tab_insert_eq s ws (inv_nextId_not_mem_keys h)]
  have hle : s.active + 1 ≤ s.widgets.length := h.1
  refine ⟨?_, ?_, ?_, ?_, rfl, rfl⟩
  · exact vecInsert_length _ _ _ hle
  · show (s.tabs ++ [(s.nextId, LapceTabData.new s.nextId ws)]).length
      = s.tabs.length + 1
    simp
  · exact vecInsert_eq _ _ _ hle
  · exact vecInsert_get_self _ _ _ hle

/-- Witness for C3 at a concrete two-tab state. -/
theorem C3_open_after_active_witness :
    (new_tab ⟨[3, 4], [(3, ⟨3, none, 3⟩), (4, ⟨4, none, 4⟩)], 0, 3, 5⟩
      none false).1.widgets.length = 3 ∧
    (new_tab ⟨[3, 4], [(3, ⟨3, none, 3⟩), (4, ⟨4, none, 4⟩)], 0, 3, 5⟩
      none false).1.widgets.get? 1 = some 5 ∧
    (new_tab ⟨[3, 4], [(3, ⟨3, none, 3⟩), (4, ⟨4, none, 4⟩)], 0, 3, 5⟩
      none false).1.active = 1 := by
  have h := C3_open_after_active
    ⟨[3, 4], [(3, ⟨3, none, 3⟩), (4, ⟨4, none, 4⟩)], 0, 3, 5⟩
    none (by decide)
  exact ⟨h.1, h.2.2.2.1, h.2.2.2.2.1⟩

/-- C4: from every well-formed state, OpenTab with `replaceCurrent = true`
leaves both tab counts unchanged, stops exactly the background handle of the
state entry of the previously active identifier (the tab previously at the
active index), replaces the widget at the active index in place, keeps the
active index, and switches the active identifier to the new (different)
identifier. -/
theorem C4_open_replace (s : LapceWindowSt)
    (ws : Option LapceWorkspace) (h : Inv s) :
    (new_tab s ws true).1.widgets.length = s.widgets.length ∧
    (new_tab s ws true).1.tabs.length = s.tabs.length ∧
    (∃ old, tabsGet s.tabs s.active_id = some old ∧
      (new_tab s ws true).2.stopped = [old.proxy]) ∧
    (new_tab s ws true).1.active = s.active ∧
    (new_tab s ws true).1.widgets.get? s.active = some s.nextId ∧
    (new_tab s ws true).1.active_id = s.nextId ∧
    s.nextId ≠ s.active_id := by
  have hni := inv_nextId_not_mem_keys h
  have hmem : s.active_id ∈
      tabKeys (s.tabs ++ [(s.nextId, LapceTabData.new s.nextId ws)]) := by
    simp only [tabKeys, List.map_append]
    exact List.mem_append.mpr (Or.inl (inv_active_id_mem_keys h))
  obtain ⟨v0, rest, hrem, hget, hkeys, hlen⟩ := tabsRemove_spec _ _ hmem
  obtain ⟨w0, rest0, hrem0, hget0, hkeys0, hlen0⟩ :=
    tabsRemove_spec _ _ (inv_active_id_mem_keys h)
  have hw0 : w0 = v0 := by
    have := tabsGet_append_left s.tabs
      [(s.nextId, LapceTabData.new s.nextId ws)] s.active_id w0 hget0
    rw [this] at hget
    exact (Option.some.injEq _ _ ▸ hget :)
  rw [new_tab_replace_eq s ws v0 rest hni hrem]
  refine ⟨?_, ?_, ⟨v0, ?_, rfl⟩, rfl, ?_, rfl, ?_⟩
  · show (s.widgets.set s.active s.nextId).length = s.widgets.length
    simp
  · show rest.length = s.tabs.length
    have : (s.tabs ++ [(s.nextId, LapceTabData.new s.nextId ws)]).length
        = s.tabs.length + 1 := by simp
    omega
  · rw [← hw0]
    exact hget0
  · exact set_get_self _ _ _ h.1
  · have := h.2.2.2.1 s.active_id (inv_active_id_mem h)
    omega

/-- Witness for C4 at a concrete two-tab state. -/
theorem C4_open_replace_witness :
    (new_tab ⟨[3, 4], [(3, ⟨3, none, 30⟩), (4, ⟨4, none, 40⟩)], 1, 4, 5⟩
      none true).1.widgets.length = 2 ∧
    (∃ old, tabsGet [(3, ⟨3, none, 30⟩), (4, ⟨4, none, 40⟩)] 4 = some old ∧
      (new_tab ⟨[3, 4], [(3, ⟨3, none, 30⟩), (4, ⟨4, none, 40⟩)], 1, 4, 5⟩
        none true).2.stopped = [old.proxy]) ∧
    (new_tab ⟨[3, 4], [(3, ⟨3, none, 30⟩), (4, ⟨4, none, 40⟩)], 1, 4, 5⟩
      none true).1.active = 1 := by
  have h := C4_open_replace
    ⟨[3, 4], [(3, ⟨3, none, 30⟩), (4, ⟨4, none, 40⟩)], 1, 4, 5⟩
    none (by decide)
  exact ⟨h.1, h.2.2.1, h.2.2.2.1⟩

/-- C10: from every well-formed state, OpenTab with
`replaceCurrent = false` stops no background handle and removes no state
entry — every entry present before is present unchanged after, and the new
map is exactly the old map with the new tab's entry added. -/
theorem C10_open_frame (s : LapceWindowSt)
    (ws : Option LapceWorkspace) (h : Inv s) :
    (new_tab s ws false).2.stopped = [] ∧
    (∀ k v, tabsGet s.tabs k = some v →
      tabsGet (new_tab s ws false).1.tabs k = some v) ∧
    (new_tab s ws false).1.tabs
      = s.tabs ++ [(s.nextId, LapceTabData.new s.nextId ws)] := by
  rw [new_tab_insert_eq s ws (inv_nextId_not_mem_keys h)]
  refine ⟨rfl, ?_, rfl⟩
  intro k v hk
  exact tabsGet_append_left _ _ _ _ hk

/-- Witness for C10 at a concrete two-tab state. -/
theorem C10_open_frame_witness :
    (new_tab ⟨[3, 4], [(3, ⟨3, none, 30⟩), (4, ⟨4, none, 40⟩)], 0, 3, 5⟩
      none false).2.stopped = [] ∧
    tabsGet (new_tab ⟨[3, 4], [(3, ⟨3, none, 30⟩), (4, ⟨4, none, 40⟩)],
      0, 3, 5⟩ none false).1.tabs 4 = some ⟨4, none, 40⟩ := by
  have h := C10_open_frame
    ⟨[3, 4], [(3, ⟨3, none, 30⟩), (4, ⟨4, none, 40⟩)], 0, 3, 5⟩
    none (by decide)
  exact ⟨h.1, h.2.1 4 ⟨4, none, 40⟩ (by decide)⟩

/-- C5: from every well-formed state, CloseTab is a no-op when exactly one
tab is open; otherwise it removes the widget at the active index and the
state entry of the active identifier (stopping exactly that entry's handle),
clamps the active index to the new last index when it would exceed it, and
resynchronizes the active identifier to the widget now at the active index.
In particular, from tabs 1,2,3 with 3 active, it yields tabs [1,2], active
index 1, active identifier 2, and 3's handle stopped exactly once. -/
theorem C5_close_tab (s : LapceWindowSt) (h : Inv s) :
    (s.tabs.length = 1 → close_tab s = (s, noFx)) ∧
    (s.tabs.length ≠ 1 →
      (close_tab s).1.widgets
        = s.widgets.take s.active ++ s.widgets.drop (s.active + 1) ∧
      (∃ old, tabsGet s.tabs s.active_id = some old ∧
        (close_tab s).2.stopped = [old.proxy] ∧
        tabsGet (close_tab s).1.tabs s.active_id = none) ∧
      (close_tab s).1.tabs.length + 1 = s.tabs.length ∧
      (s.active = s.widgets.length - 1 →
        (close_tab s).1.active = s.widgets.length - 2) ∧
      (s.active < s.widgets.length - 1 →
        (close_tab s).1.active = s.active) ∧
      (close_tab s).1.widgets.get? (close_tab s).1.active
        = some (close_tab s).1.active_id) ∧
    close_tab ⟨[1, 2, 3], [(1, ⟨1, none, 101⟩), (2, ⟨2, none, 102⟩),
        (3, ⟨3, none, 103⟩)], 2, 3, 10⟩
      = (⟨[1, 2], [(1, ⟨1, none, 101⟩), (2, ⟨2, none, 102⟩)], 1, 2, 10⟩,
        ⟨[103], [UICmd.focusTab], true, true⟩) := by
  refine ⟨fun h1 => by simp [close_tab, h1], fun hne => ?_, by decide⟩
  obtain ⟨v0, rest, hrem, hget, hkeys, hlen⟩ :=
    tabsRemove_spec _ _ (inv_active_id_mem_keys h)
  have hw2 : 2 ≤ s.widgets.length := by
    have h2 := inv_len_eq h
    have h3 := h.1
    omega
  have hlen2 : (s.widgets.eraseIdx s.active).length
      = s.widgets.length - 1 := by
    rw [List.length_eraseIdx]
    simp [h.1]
  have hbound : (if (s.widgets.eraseIdx s.active).length ≤ s.active then
      (s.widgets.eraseIdx s.active).length - 1 else s.active) <
      (s.widgets.eraseIdx s.active).length := by
    have h3 := h.1
    split <;> omega
  have hkn : (tabKeys s.tabs).Nodup := h.2.2.1.nodup h.2.2.2.2
  rw [close_tab_eq s v0 rest hne hrem]
  refine ⟨?_, ⟨v0, hget, rfl, ?_⟩, ?_, ?_, ?_, ?_⟩
  · exact eraseIdx_take_drop _ _ h.1
  · show tabsGet rest s.active_id = none
    refine (tabsGet_eq_none _ _).mpr ?_
    rw [hkeys]
    exact hkn.not_mem_erase
  · exact hlen
  · intro ha
    show (if (s.widgets.eraseIdx s.active).length ≤ s.active then
      (s.widgets.eraseIdx s.active).length - 1 else s.active)
      = s.widgets.length - 2
    rw [hlen2]
    split <;> omega
  · intro ha
    show (if (s.widgets.eraseIdx s.active).length ≤ s.active then
      (s.widgets.eraseIdx s.active).length - 1 else s.active) = s.active
    rw [hlen2]
    split <;> omega
  · exact get_eq_getD _ _ hbound

/-- Witness for C5 at a concrete two-tab state (plus the scenario inside the
theorem itself). -/
theorem C5_close_tab_witness :
    close_tab ⟨[7], [(7, ⟨7, none, 70⟩)], 0, 7, 8⟩
      = (⟨[7], [(7, ⟨7, none, 70⟩)], 0, 7, 8⟩, noFx) :=
  (C5_close_tab ⟨[7], [(7, ⟨7, none, 70⟩)], 0, 7, 8⟩ (by decide)).1
    (by decide)

/-- C6: from every well-formed state, SelectNextTab advances the active
index by one and wraps from the last index to 0, SelectPreviousTab retreats
by one and wraps from 0 to the last index, and both resynchronize the active
identifier to the widget at the new index; in particular with 3 tabs,
SelectNextTab at index 2 moves to 0 and SelectPreviousTab at 0 moves to 2. -/
theorem C6_select_wrap (s : LapceWindowSt) (h : Inv s) :
    (s.active < s.widgets.length - 1 →
      (next_tab s).1.active = s.active + 1) ∧
    (s.active = s.widgets.length - 1 → (next_tab s).1.active = 0) ∧
    (0 < s.active → (previous_tab s).1.active = s.active - 1) ∧
    (s.active = 0 →
      (previous_tab s).1.active = s.widgets.length - 1) ∧
    (next_tab s).1.widgets.get? (next_tab s).1.active
      = some (next_tab s).1.active_id ∧
    (previous_tab s).1.widgets.get? (previous_tab s).1.active
      = some (previous_tab s).1.active_id ∧
    (next_tab ⟨[5, 6, 7], [(5, ⟨5, none, 50⟩), (6, ⟨6, none, 60⟩),
      (7, ⟨7, none, 70⟩)], 2, 7, 10⟩).1.active = 0 ∧
    (previous_tab ⟨[5, 6, 7], [(5, ⟨5, none, 50⟩), (6, ⟨6, none, 60⟩),
      (7, ⟨7, none, 70⟩)], 0, 5, 10⟩).1.active = 2 := by
  have h1 := h.1
  refine ⟨?_, ?_, ?_, ?_, (inv_next_tab s h).2.1,
    (inv_previous_tab s h).2.1, by decide, by decide⟩
  · intro hlt
    show (if s.widgets.length - 1 ≤ s.active then 0 else s.active + 1)
      = s.active + 1
    rw [if_neg (by omega)]
  · intro heq
    show (if s.widgets.length - 1 ≤ s.active then 0 else s.active + 1) = 0
    rw [if_pos (by omega)]
  · intro hpos
    show (if s.active = 0 then s.widgets.length - 1 else s.active - 1)
      = s.active - 1
    rw [if_neg (by omega)]
  · intro h0
    show (if s.active = 0 then s.widgets.length - 1 else s.active - 1)
      = s.widgets.length - 1
    rw [if_pos h0]

/-- Witness for C6 at a concrete three-tab state. -/
theorem C6_select_wrap_witness :
    (next_tab ⟨[5, 6, 7], [(5, ⟨5, none, 50⟩), (6, ⟨6, none, 60⟩),
      (7, ⟨7, none, 70⟩)], 0, 5, 10⟩).1.active = 1 :=
  (C6_select_wrap ⟨[5, 6, 7], [(5, ⟨5, none, 50⟩), (6, ⟨6, none, 60⟩),
    (7, ⟨7, none, 70⟩)], 0, 5, 10⟩ (by decide)).1 (by decide)

/-- C2: from every well-formed state, a recognized container command
(SetWorkspace, NewTab, CloseTab, NextTab, PreviousTab) is fully handled by
the corresponding operation and is delivered to no tab widget; every other
event is delivered to exactly the active tab's widget, without changing the
state; the widget of an inactive tab never receives an event. -/
theorem C2_event_routing (s : LapceWindowSt) (h : Inv s) (e : UIEvent) :
    (fullyHandled e = true →
      (event s e).forwarded = [] ∧
      (event s e).state = (match e with
        | .Command (.SetWorkspace w) => (new_tab s (some w) true).1
        | .Command .NewTab => (new_tab s none false).1
        | .Command .CloseTab => (close_tab s).1
        | .Command .NextTab => (next_tab s).1
        | _ => (previous_tab s).1)) ∧
    (fullyHandled e = false →
      (event s e).forwarded = [s.widgets.getD s.active 0] ∧
      (event s e).state = s) ∧
    (∀ i, i < s.widgets.length → i ≠ s.active →
      ¬ s.widgets.getD i 0 ∈ (event s e).forwarded) := by
  cases e with
  | Command cmd =>
    cases cmd with
    | SetWorkspace w =>
      refine ⟨fun _ => ⟨rfl, rfl⟩,
        fun hf => absurd hf (by simp [fullyHandled]), ?_⟩
      intro i hi hia hmem
      simp [event] at hmem
    | NewTab =>
      refine ⟨fun _ => ⟨rfl, rfl⟩,
        fun hf => absurd hf (by simp [fullyHandled]), ?_⟩
      intro i hi hia hmem
      simp [event] at hmem
    | CloseTab =>
      refine ⟨fun _ => ⟨rfl, rfl⟩,
        fun hf => absurd hf (by simp [fullyHandled]), ?_⟩
      intro i hi hia hmem
      simp [event] at hmem
    | NextTab =>
      refine ⟨fun _ => ⟨?_, rfl⟩,
        fun hf => absurd hf (by simp [fullyHandled]), ?_⟩
      · simp [event, next_tab, podForward]
      · intro i hi hia hmem
        simp [event, next_tab, podForward] at hmem
    | PreviousTab =>
      refine ⟨fun _ => ⟨?_, rfl⟩,
        fun hf => absurd hf (by simp [fullyHandled]), ?_⟩
      · simp [event, previous_tab, podForward]
      · intro i hi hia hmem
        simp [event, previous_tab, podForward] at hmem
    | Other n =>
      refine ⟨fun ht => absurd ht (by simp [fullyHandled]),
        fun _ => ⟨rfl, rfl⟩, ?_⟩
      intro i hi hia hmem
      have heq : s.widgets.getD i 0 = s.widgets.getD s.active 0 := by
        simpa [event, podForward] using hmem
      exact getD_ne_of_ne s.widgets h.2.2.2.2 i s.active hi h.1 hia heq
  | Other n =>
    refine ⟨fun ht => absurd ht (by simp [fullyHandled]),
      fun _ => ⟨rfl, rfl⟩, ?_⟩
    intro i hi hia hmem
    have heq : s.widgets.getD i 0 = s.widgets.getD s.active 0 := by
      simpa [event, podForward] using hmem
    exact getD_ne_of_ne s.widgets h.2.2.2.2 i s.active hi h.1 hia heq

/-- Witness for C2 at a concrete two-tab state: a NewTab command is not
forwarded, an unrecognized event goes only to the active tab's widget. -/
theorem C2_event_routing_witness :
    (event ⟨[3, 4], [(3, ⟨3, none, 30⟩), (4, ⟨4, none, 40⟩)], 0, 3, 5⟩
      (UIEvent.Command .NewTab)).forwarded = [] ∧
    (event ⟨[3, 4], [(3, ⟨3, none, 30⟩), (4, ⟨4, none, 40⟩)], 0, 3, 5⟩
      (UIEvent.Other 9)).forwarded = [3] := by
  have hA := C2_event_routing
    ⟨[3, 4], [(3, ⟨3, none, 30⟩), (4, ⟨4, none, 40⟩)], 0, 3, 5⟩
    (by decide) (UIEvent.Command .NewTab)
  have hB := C2_event_routing
    ⟨[3, 4], [(3, ⟨3, none, 30⟩), (4, ⟨4, none, 40⟩)], 0, 3, 5⟩
    (by decide) (UIEvent.Other 9)
  exact ⟨(hA.1 (by decide)).1, (hB.2.1 (by decide)).1⟩

/-- C7: for every layout call on a state with at least one tab, with more
than one tab open the active tab is laid out under tight constraints on the
area below a 25-unit strip, with origin (0, 25); with exactly one tab it
receives the full area at the origin; an "update window origin" command
targeted at the active identifier is submitted; and the returned size is
the constraint maximum. -/
theorem C7_layout (s : LapceWindowSt) (bcMax : Rat × Rat)
    (hn : 1 ≤ s.widgets.length) :
    (1 < s.widgets.length →
      (layout s bcMax).tabOrigin = (0, 25) ∧
      (layout s bcMax).tabSize = (bcMax.1, bcMax.2 - 25)) ∧
    (s.widgets.length = 1 →
      (layout s bcMax).tabOrigin = (0, 0) ∧
      (layout s bcMax).tabSize = bcMax) ∧
    (layout s bcMax).emitted = [UICmd.updateWindowOrigin s.active_id] ∧
    (layout s bcMax).returned = bcMax := by
  refine ⟨?_, ?_, rfl, rfl⟩
  · intro h1
    constructor <;> simp [layout, h1]
  · intro h1
    constructor <;> simp [layout, h1]

/-- Witness for C7 at concrete one-tab and two-tab states. -/
theorem C7_layout_witness :
    (layout ⟨[3, 4], [(3, ⟨3, none, 30⟩), (4, ⟨4, none, 40⟩)], 0, 3, 5⟩
      (800, 600)).tabOrigin = (0, 25) ∧
    (layout ⟨[7], [(7, ⟨7, none, 70⟩)], 0, 7, 8⟩ (800, 600)).tabSize
      = (800, 600) := by
  have hA := C7_layout
    ⟨[3, 4], [(3, ⟨3, none, 30⟩), (4, ⟨4, none, 40⟩)], 0, 3, 5⟩
    (800, 600) (by decide)
  have hB := C7_layout ⟨[7], [(7, ⟨7, none, 70⟩)], 0, 7, 8⟩
    (800, 600) (by decide)
  exact ⟨(hA.1 (by decide)).1, (hB.2.1 (by decide)).2⟩

/-- C8: the label painted for a tab is the last component of its workspace
path when local, that component suffixed with " [user@host]" when remote,
and "Lapce" when no workspace is bound; in particular a local
`/home/u/proj` tab is labeled "proj", a remote one with user "bob" and host
"dev1" is labeled "proj [bob@dev1]", and `paint` on a two-tab state with
those workspaces draws exactly those labels. -/
theorem C8_tab_labels (path : List String) (dir user host : String)
    (hd : file_name path = some dir) :
    workspaceLabel (some ⟨.Local, path⟩) = some dir ∧
    workspaceLabel (some ⟨.RemoteSSH user host, path⟩)
      = some (dir ++ " [" ++ user ++ "@" ++ host ++ "]") ∧
    workspaceLabel none = some "Lapce" ∧
    workspaceLabel (some ⟨.Local, ["home", "u", "proj"]⟩) = some "proj" ∧
    workspaceLabel (some ⟨.RemoteSSH "bob" "dev1", ["home", "u", "proj"]⟩)
      = some "proj [bob@dev1]" ∧
    paint ⟨[1, 2],
      [(1, ⟨1, some ⟨.Local, ["home", "u", "proj"]⟩, 101⟩),
       (2, ⟨2, some ⟨.RemoteSSH "bob" "dev1", ["home", "u", "proj"]⟩,
         102⟩)], 0, 1, 10⟩
      = some ["proj", "proj [bob@dev1]"] := by
  refine ⟨?_, ?_, rfl, rfl, rfl, rfl⟩
  · simp [workspaceLabel, hd]
  · simp [workspaceLabel, hd]

/-- Witness for C8 at the concrete `/home/u/proj` path. -/
theorem C8_tab_labels_witness :
    workspaceLabel (some ⟨.Local, ["home", "u", "proj"]⟩) = some "proj" ∧
    workspaceLabel (some ⟨.RemoteSSH "bob" "dev1", ["home", "u", "proj"]⟩)
      = some "proj [bob@dev1]" := by
  have h := C8_tab_labels ["home", "u", "proj"] "proj" "bob" "dev1" rfl
  exact ⟨h.1, by simpa using h.2.1⟩

/-- C9 counterexample: CloseTab on a two-tab state whose active identifier
has no entry in the state map completes normally — `close_tab` reaches the
end with no panic, silently skipping the proxy stop — refuting that every
listed operation terminates abruptly on this invariant violation. -/
theorem C9_counterexample :
    tabsGet [(1, ⟨1, none, 101⟩), (2, ⟨2, none, 102⟩)] 99 = none ∧
    close_tab_checked ⟨[1, 2], [(1, ⟨1, none, 101⟩), (2, ⟨2, none, 102⟩)],
        0, 99, 100⟩
      = some (⟨[2], [(1, ⟨1, none, 101⟩), (2, ⟨2, none, 102⟩)], 0, 2, 100⟩,
        ⟨[], [UICmd.focusTab], true, true⟩) := by
  decide

/-- C9 (amended): a missing state entry for the active identifier makes
Update terminate abruptly (for the old or the new state), and a workspace
path with no final component or a widget with no state entry makes Paint
terminate abruptly; but CloseTab and OpenTab-with-replace complete on a
state whose active identifier has no entry, silently skipping the proxy
stop. -/
theorem C9_panic_amended (old_d d old2 d2 t u : LapceWindowSt)
    (v2 : LapceTabData) (w : LapceWorkspace) (ws : Option LapceWorkspace)
    (vid : Nat) (more : List Nat) (vtabs : List (Nat × LapceTabData))
    (h1 : tabsGet old_d.tabs old_d.active_id = none)
    (h2a : tabsGet old2.tabs old2.active_id = some v2)
    (h2b : tabsGet d2.tabs d2.active_id = none)
    (h3 : w.path = [])
    (h10 : tabsGet vtabs vid = none)
    (h4 : tabsGet t.tabs t.active_id = none)
    (h5 : t.tabs.length ≠ 1)
    (h6 : t.active < t.widgets.length)
    (h7 : 2 ≤ t.widgets.length)
    (h8 : tabsGet u.tabs u.active_id = none)
    (h9 : u.active_id ≠ u.nextId) :
    update old_d d = none ∧
    update old2 d2 = none ∧
    workspaceLabel (some w) = none ∧
    paintLabels (vid :: more) vtabs = none ∧
    (close_tab_checked t).isSome = true ∧
    (close_tab_checked t).map (fun r => r.2.stopped) = some [] ∧
    (new_tab u ws true).2.stopped = [] := by
  have hle2 : ¬ (t.widgets.length ≤ t.active) := by omega
  have hlen3 : (t.widgets.eraseIdx t.active).length
      = t.widgets.length - 1 := by
    rw [List.length_eraseIdx]
    simp [h6]
  have hz : ¬ ((t.widgets.eraseIdx t.active).length = 0) := by omega
  have hrem : tabsRemove t.tabs t.active_id = none :=
    tabsRemove_not_mem _ _ ((tabsGet_eq_none _ _).mp h4)
  have hct : close_tab_checked t = some
      (⟨t.widgets.eraseIdx t.active, t.tabs,
        (if (t.widgets.eraseIdx t.active).length ≤ t.active then
          (t.widgets.eraseIdx t.active).length - 1 else t.active),
        (t.widgets.eraseIdx t.active).getD
          (if (t.widgets.eraseIdx t.active).length ≤ t.active then
            (t.widgets.eraseIdx t.active).length - 1 else t.active) 0,
        t.nextId⟩, ⟨[], [UICmd.focusTab], true, true⟩) := by
    simp [close_tab_checked, h5, hle2, hz, hrem]
  have h8m : u.active_id ∉ tabKeys u.tabs := (tabsGet_eq_none _ _).mp h8
  have hnm : u.active_id ∉
      tabKeys (tabsInsert u.tabs u.nextId (LapceTabData.new u.nextId ws)) := by
    intro hmem
    rcases tabsInsert_keys u.tabs u.nextId _ _ hmem with hh | hh
    · exact h8m hh
    · exact h9 hh
  have hrem2 := tabsRemove_not_mem _ _ hnm
  refine ⟨by simp [update, h1], by simp [update, h2a, h2b], ?_,
    by simp [paintLabels, h10], ?_, ?_, ?_⟩
  · simp [workspaceLabel, file_name, h3]
  · rw [hct]
    rfl
  · rw [hct]
    rfl
  · simp [new_tab, hrem2]

/-- Witness for the amended C9 at concrete invariant-violating states. -/
theorem C9_panic_amended_witness :
    update ⟨[], [], 0, 5, 0⟩ ⟨[], [], 0, 5, 0⟩ = none ∧
    workspaceLabel (some ⟨.Local, []⟩) = none ∧
    (close_tab_checked ⟨[1, 2], [(1, ⟨1, none, 201⟩), (2, ⟨2, none, 202⟩)],
      1, 99, 100⟩).isSome = true ∧
    (new_tab ⟨[1], [(1, ⟨1, none, 1⟩)], 0, 99, 50⟩ none true).2.stopped
      = [] := by
  have h := C9_panic_amended ⟨[], [], 0, 5, 0⟩ ⟨[], [], 0, 5, 0⟩
    ⟨[], [(7, ⟨7, none, 7⟩)], 0, 7, 8⟩ ⟨[], [], 0, 9, 0⟩
    ⟨[1, 2], [(1, ⟨1, none, 201⟩), (2, ⟨2, none, 202⟩)], 1, 99, 100⟩
    ⟨[1], [(1, ⟨1, none, 1⟩)], 0, 99, 50⟩
    ⟨7, none, 7⟩ ⟨.Local, []⟩ none 3 [] []
    (by decide) (by decide) (by decide) rfl (by decide) (by decide)
    (by decide) (by decide) (by decide) (by decide) (by decide)
  exact ⟨h.1, h.2.2.1, h.2.2.2.2.1, h.2.2.2.2.2.2⟩

end LapceWindow
